import Mathlib

/-!
Shallow embedding of the `clone-behavior` Rust crate: a capability framework
classifying clone operations by semantics (independent / mirrored / mixed)
and by a speed tier (near-instant / constant-time / log-time / any-speed).

The embedding translates, from the crate sources:
  * `src/speed.rs`      — the four-tier speed lattice;
  * `src/blanket_impls.rs` — the `NonRecursive` promotion (blanket) impls;
  * `src/independent.rs`, `src/mirrored.rs`, `src/mixed.rs` — the concrete
    implementations for primitives, tuples, options/results, cells, locks,
    reference-counted handles and collections.

Stateful standard-library types (`Rc`, `Weak`, `RefCell`, `Mutex`, `RwLock`,
`Cell`) are embedded with explicit state: a reference-count heap for `Rc`
and `Weak`, a borrow flag for `RefCell`, a poison flag for the locks.
Panics are embedded as `Option.none` results.
-/

namespace CloneBehavior

/-- The four speed tiers of `src/speed.rs`: `NearInstant`, `ConstantTime`,
`LogTime`, `AnySpeed`.  In Rust these are four uninhabited types implementing
the sealed trait `Speed`; here they are the four constructors of one closed
inductive, which models the sealed (closed) set of tiers. -/
inductive Speed where
  | nearInstant
  | constantTime
  | logTime
  | anySpeed
deriving DecidableEq, Repr

/-- The three clone-semantics trait families: `IndependentClone`,
`MirroredClone`, `MixedClone` (from `src/independent.rs`, `src/mirrored.rs`,
`src/mixed.rs`). -/
inductive Sem where
  | independent
  | mirrored
  | mixed
deriving DecidableEq, Repr

/-! ## Blanket promotion impls (`src/blanket_impls.rs`, `blanket_impls!` macro)

The macro generates, for each of the three semantics traits and for any
`T : NonRecursive`, three delegating implementations:

  * `impl Tr<ConstantTime> for T` delegating to `Tr<NearInstant>`;
  * `impl Tr<LogTime>      for T` delegating to `Tr<ConstantTime>`;
  * `impl Tr<AnySpeed>     for T` delegating to `Tr<LogTime>`.

Each generated body is literally `<T as Tr<Faster>>::clone_fn(self)`. Since
the macro body is identical for the three traits, one family of functions,
generic in the clone function, embeds all three instantiations. -/

/-- `impl<T: NonRecursive + Tr<NearInstant>> Tr<ConstantTime> for T`:
the `ConstantTime` clone delegates to the `NearInstant` clone. -/
def blanket_constant_from_near_instant {α : Type} (clone_fn : α → α) : α → α :=
  fun x => clone_fn x

/-- `impl<T: NonRecursive + Tr<ConstantTime>> Tr<LogTime> for T`:
the `LogTime` clone delegates to the `ConstantTime` clone. -/
def blanket_log_from_constant {α : Type} (clone_fn : α → α) : α → α :=
  fun x => clone_fn x

/-- `impl<T: NonRecursive + Tr<LogTime>> Tr<AnySpeed> for T`:
the `AnySpeed` clone delegates to the `LogTime` clone. -/
def blanket_any_from_log {α : Type} (clone_fn : α → α) : α → α :=
  fun x => clone_fn x

/-- The full tier assignment for a `NonRecursive` type whose manual
implementation sits at tier `NearInstant` with body `f`: every slower tier is
the blanket impl built (by chained delegation) on top of `f`. -/
def derived_impls_from_near_instant {α : Type} (f : α → α) : Speed → (α → α)
  | Speed.nearInstant => f
  | Speed.constantTime => blanket_constant_from_near_instant f
  | Speed.logTime => blanket_log_from_constant (blanket_constant_from_near_instant f)
  | Speed.anySpeed =>
      blanket_any_from_log (blanket_log_from_constant (blanket_constant_from_near_instant f))

/-- The tier assignment for a `NonRecursive` type whose fastest manual
implementation sits at tier `ConstantTime` with body `f`: there is no
`NearInstant` impl, and `LogTime` / `AnySpeed` are derived by delegation. -/
def derived_impls_from_constant {α : Type} (f : α → α) : Speed → Option (α → α)
  | Speed.nearInstant => none
  | Speed.constantTime => some f
  | Speed.logTime => some (blanket_log_from_constant f)
  | Speed.anySpeed => some (blanket_any_from_log (blanket_log_from_constant f))

/-- The tier assignment for a `NonRecursive` type whose fastest manual
implementation sits at tier `LogTime` with body `f`: only `AnySpeed` is
derived. -/
def derived_impls_from_log {α : Type} (f : α → α) : Speed → Option (α → α)
  | Speed.nearInstant => none
  | Speed.constantTime => none
  | Speed.logTime => some f
  | Speed.anySpeed => some (blanket_any_from_log f)

/-- C1: for a `NonRecursive` type with a `NearInstant` implementation `f` of a
semantics trait, the mechanically derived `ConstantTime`, `LogTime` and
`AnySpeed` implementations return results identical to `f` on every input;
if the fastest implementation is at `ConstantTime`, the derived `LogTime` and
`AnySpeed` implementations exist and agree with it; if at `LogTime`, the
derived `AnySpeed` implementation exists and agrees with it. -/
theorem blanket_impls_tier_soundness {α : Type} (f : α → α) (x : α) :
    (∀ s : Speed, derived_impls_from_near_instant f s x = f x)
    ∧ ((derived_impls_from_constant f Speed.logTime).isSome = true
      ∧ (derived_impls_from_constant f Speed.anySpeed).isSome = true
      ∧ ∀ s : Speed, (derived_impls_from_constant f s).elim True (fun g => g x = f x))
    ∧ ((derived_impls_from_log f Speed.anySpeed).isSome = true
      ∧ ∀ s : Speed, (derived_impls_from_log f s).elim True (fun g => g x = f x)) := by
  refine ⟨fun s => ?_, ⟨rfl, rfl, fun s => ?_⟩, ⟨rfl, fun s => ?_⟩⟩ <;>
    cases s <;> simp [derived_impls_from_near_instant, derived_impls_from_constant,
      derived_impls_from_log, blanket_constant_from_near_instant,
      blanket_log_from_constant, blanket_any_from_log]

/-! ## Reference-counted heap (`Rc`, `Arc`, `rc::Weak`, `sync::Weak`)

`Rc<T>` / `Arc<T>` and their weak counterparts are embedded with an explicit
heap of reference-counted slots.  A strong handle is the index of its slot; a
weak handle either points at a slot or is dangling (`Weak::new()`).  A slot
whose strong count is `0` has had its value dropped: upgrading a weak handle
to it fails.  `Rc` and `Arc` have identical clone code in the crate, so one
model covers both. -/

/-- One reference-counted allocation: the stored value and its strong count. -/
structure RcSlot (α : Type) where
  value : α
  strong : Nat
deriving DecidableEq, Repr

/-- The heap of reference-counted allocations. -/
structure RcHeap (α : Type) where
  slots : List (RcSlot α)
deriving DecidableEq, Repr

/-- A weak handle: `Weak::new()` is `dangling`; `Rc::downgrade` of a strong
handle to slot `i` is `slot i`. -/
inductive WeakHandle where
  | dangling
  | slot (i : Nat)
deriving DecidableEq, Repr

/-- Apply `f` to the slot at index `n`, leaving other slots unchanged. -/
def modifySlot {α : Type} (f : RcSlot α → RcSlot α) (n : Nat) (l : List (RcSlot α)) :
    List (RcSlot α) :=
  match l, n with
  | [], _ => []
  | s :: rest, 0 => f s :: rest
  | s :: rest, m + 1 => s :: modifySlot f m rest

/-- `Weak::upgrade`, as a resolution check: the referent's value when the slot
is still alive (strong count positive), `none` otherwise. -/
def upgrade {α : Type} (h : RcHeap α) : WeakHandle → Option α
  | WeakHandle.dangling => none
  | WeakHandle.slot i =>
    match h.slots[i]? with
    | some s => if 0 < s.strong then some s.value else none
    | none => none

/-- `IndependentClone for rc::Weak<T>` / `sync::Weak<T>`
(`src/independent.rs`):

    if let Some(rc) = self.upgrade() \x7b
        Rc::downgrade(&Rc::new(T::independent_clone(&rc)))
    \x7d else \x7b
        Self::new()
    \x7d

The temporary strong handle `rc` raises the source slot's strong count for
the duration of the body; `Rc::new` allocates a fresh slot with strong count
`1`; `Rc::downgrade` yields a weak handle to it; then the temporary `Rc`
created by `Rc::new` is dropped at the end of the expression and `rc` at the
end of the body, decrementing both strong counts. -/
def weak_independent_clone {α : Type} (elem_clone : α → α) (h : RcHeap α) (w : WeakHandle) :
    WeakHandle × RcHeap α :=
  match w with
  | WeakHandle.dangling => (WeakHandle.dangling, h)
  | WeakHandle.slot i =>
    match h.slots[i]? with
    | none => (WeakHandle.dangling, h)
    | some s =>
      if 0 < s.strong then
        let h1 : RcHeap α := ⟨modifySlot (fun t => { t with strong := t.strong + 1 }) i h.slots⟩
        let j := h1.slots.length
        let h2 : RcHeap α := ⟨h1.slots ++ [⟨elem_clone s.value, 1⟩]⟩
        let h3 : RcHeap α := ⟨modifySlot (fun t => { t with strong := t.strong - 1 }) j h2.slots⟩
        let h4 : RcHeap α := ⟨modifySlot (fun t => { t with strong := t.strong - 1 }) i h3.slots⟩
        (WeakHandle.slot j, h4)
      else (WeakHandle.dangling, h)

/-- `MirroredClone<S> for Rc<T>` / `Arc<T>` (`refcounted!` in
`src/mirrored.rs`): `self.clone()` bumps the slot's strong count and returns
a handle to the same slot. -/
def rc_mirrored_clone {α : Type} (h : RcHeap α) (rc : Nat) : Nat × RcHeap α :=
  (rc, ⟨modifySlot (fun t => { t with strong := t.strong + 1 }) rc h.slots⟩)

/-- `MirroredClone<S> for rc::Weak<T>` / `sync::Weak<T>`: `self.clone()`
returns a weak handle to the same slot (the weak count is not modelled). -/
def weak_mirrored_clone (w : WeakHandle) : WeakHandle := w

/-- Read the referent's value through a strong handle. -/
def read_rc {α : Type} (h : RcHeap α) (rc : Nat) : Option α :=
  (h.slots[rc]?).map RcSlot.value

/-- Mutate the referent's value through a strong handle (e.g. through a cell
inside the `Rc`). -/
def write_rc {α : Type} (h : RcHeap α) (rc : Nat) (v : α) : RcHeap α :=
  ⟨modifySlot (fun t => { t with value := v }) rc h.slots⟩

/-- `refcounted!` generates `impl<S: Speed, T: ?Sized> MirroredClone<S>`
for `Rc`, `rc::Weak`, `Arc` and `sync::Weak`: every tier, `NearInstant`
included, is covered. -/
def refcounted_mirrored_impl_exists : Speed → Bool :=
  fun _ => true

theorem modifySlot_length {α : Type} (f : RcSlot α → RcSlot α) (n : Nat)
    (l : List (RcSlot α)) : (modifySlot f n l).length = l.length := by
  induction l generalizing n with
  | nil => simp [modifySlot]
  | cons s rest ih => cases n with
    | zero => simp [modifySlot]
    | succ m => simpa [modifySlot] using ih m

theorem getElem?_modifySlot_self {α : Type} (f : RcSlot α → RcSlot α) (n : Nat)
    (l : List (RcSlot α)) : (modifySlot f n l)[n]? = (l[n]?).map f := by
  induction l generalizing n with
  | nil => simp [modifySlot]
  | cons s rest ih => cases n with
    | zero => simp [modifySlot]
    | succ m => simpa [modifySlot] using ih m

theorem getElem?_modifySlot_ne {α : Type} (f : RcSlot α → RcSlot α) {m n : Nat}
    (hne : m ≠ n) (l : List (RcSlot α)) : (modifySlot f n l)[m]? = l[m]? := by
  induction l generalizing m n with
  | nil => simp [modifySlot]
  | cons s rest ih => cases n with
    | zero => cases m with
      | zero => exact absurd rfl hne
      | succ k => simp [modifySlot]
    | succ j => cases m with
      | zero => simp [modifySlot]
      | succ k =>
        have hkj : k ≠ j := fun hkj => hne (by simpa using congrArg Nat.succ hkj)
        simpa [modifySlot] using ih hkj

/-- The returned weak handle of `weak_independent_clone` never resolves: when
the referent is alive, the freshly allocated backing `Rc` is itself dropped
before the operation returns, so the new slot's strong count is `0`. -/
theorem weak_independent_clone_never_resolves {α : Type} (elem_clone : α → α)
    (h : RcHeap α) (w : WeakHandle) :
    upgrade (weak_independent_clone elem_clone h w).2
      (weak_independent_clone elem_clone h w).1 = none := by
  match w with
  | WeakHandle.dangling => rfl
  | WeakHandle.slot i =>
    unfold weak_independent_clone
    match hslot : h.slots[i]? with
    | none => simp [upgrade, hslot]
    | some s =>
      by_cases hs : 0 < s.strong
      · have hi : i < h.slots.length := by
          by_contra hge
          rw [List.getElem?_eq_none (Nat.le_of_not_lt hge)] at hslot
          exact Option.noConfusion hslot
        have hij :
            (modifySlot (fun t => { t with strong := t.strong + 1 }) i h.slots).length ≠ i := by
          rw [modifySlot_length]
          exact Nat.ne_of_gt hi
        simp only [hslot]
        rw [if_pos hs]
        simp only [upgrade]
        rw [getElem?_modifySlot_ne _ hij, getElem?_modifySlot_self,
          List.getElem?_append_right (Nat.le_refl _)]
        simp [modifySlot_length, modifySlot]
      · simp [upgrade, hslot, hs]

/-- C2: evaluation of `weak_independent_clone` on concrete heaps.  With a dead
referent (strong count `0`) the result is a fresh dangling weak handle and no
failure, as the claim states.  But with a live referent (value `5`, strong
count `1`) the returned weak handle does NOT resolve to the independent copy:
the freshly allocated backing `Rc` is dropped before the operation returns,
so upgrading the returned handle yields `none`, not `some 5`. -/
theorem weak_independent_clone_live_referent_bug :
    upgrade (RcHeap.mk [RcSlot.mk (5 : Int) 1]) (WeakHandle.slot 0) = some 5
    ∧ (weak_independent_clone (fun v : Int => v) (RcHeap.mk [RcSlot.mk 5 1])
        (WeakHandle.slot 0)).1 = WeakHandle.slot 1
    ∧ upgrade (weak_independent_clone (fun v : Int => v) (RcHeap.mk [RcSlot.mk 5 1])
          (WeakHandle.slot 0)).2
        (weak_independent_clone (fun v : Int => v) (RcHeap.mk [RcSlot.mk 5 1])
          (WeakHandle.slot 0)).1 = none
    ∧ (weak_independent_clone (fun v : Int => v) (RcHeap.mk [RcSlot.mk 5 0])
        (WeakHandle.slot 0)).1 = WeakHandle.dangling
    ∧ (weak_independent_clone (fun v : Int => v) (RcHeap.mk [RcSlot.mk 5 0])
        (WeakHandle.slot 0)).2 = RcHeap.mk [RcSlot.mk 5 0]
    ∧ upgrade (RcHeap.mk [RcSlot.mk (5 : Int) 0]) WeakHandle.dangling = none := by
  decide

/-- C5: `MirroredClone` for reference-counted handles is implemented at every
speed tier (`NearInstant` included); the mirrored clone of a strong handle is
a handle to the very same slot (the referent is not cloned and no referent
value changes); writing the referent through either handle is observed when
reading through the other; and the mirrored clone of a weak handle is the
same weak handle. -/
theorem rc_mirrored_clone_shares_referent {α : Type} (h : RcHeap α) (rc : Nat) (v : α)
    (halive : rc < h.slots.length) :
    (∀ s : Speed, refcounted_mirrored_impl_exists s = true)
    ∧ (rc_mirrored_clone h rc).1 = rc
    ∧ (∀ j : Nat, read_rc (rc_mirrored_clone h rc).2 j = read_rc h j)
    ∧ read_rc (write_rc (rc_mirrored_clone h rc).2 (rc_mirrored_clone h rc).1 v) rc = some v
    ∧ read_rc (write_rc (rc_mirrored_clone h rc).2 rc v) (rc_mirrored_clone h rc).1 = some v
    ∧ (∀ w : WeakHandle, weak_mirrored_clone w = w) := by
  obtain ⟨s, hs⟩ : ∃ s, h.slots[rc]? = some s := by
    rw [List.getElem?_eq_getElem halive]
    exact ⟨_, rfl⟩
  refine ⟨fun _ => rfl, rfl, ?_, ?_, ?_, fun _ => rfl⟩
  · intro j
    by_cases hj : j = rc
    · subst hj
      simp [read_rc, rc_mirrored_clone, getElem?_modifySlot_self, hs]
    · simp [read_rc, rc_mirrored_clone, getElem?_modifySlot_ne _ hj]
  · simp [read_rc, write_rc, rc_mirrored_clone, getElem?_modifySlot_self, hs]
  · simp [read_rc, write_rc, rc_mirrored_clone, getElem?_modifySlot_self, hs]

/-- Witness for `rc_mirrored_clone_shares_referent` at the concrete heap
holding `7` in slot `0`, writing `9` through the mirrored clone. -/
theorem rc_mirrored_clone_shares_referent_witness :
    (0 : Nat) < (RcHeap.mk [RcSlot.mk (7 : Int) 1]).slots.length
    ∧ ((∀ s : Speed, refcounted_mirrored_impl_exists s = true)
      ∧ (rc_mirrored_clone (RcHeap.mk [RcSlot.mk (7 : Int) 1]) 0).1 = 0
      ∧ (∀ j : Nat, read_rc (rc_mirrored_clone (RcHeap.mk [RcSlot.mk (7 : Int) 1]) 0).2 j
          = read_rc (RcHeap.mk [RcSlot.mk (7 : Int) 1]) j)
      ∧ read_rc (write_rc (rc_mirrored_clone (RcHeap.mk [RcSlot.mk (7 : Int) 1]) 0).2
          (rc_mirrored_clone (RcHeap.mk [RcSlot.mk (7 : Int) 1]) 0).1 9) 0 = some 9
      ∧ read_rc (write_rc (rc_mirrored_clone (RcHeap.mk [RcSlot.mk (7 : Int) 1]) 0).2 0 9)
          (rc_mirrored_clone (RcHeap.mk [RcSlot.mk (7 : Int) 1]) 0).1 = some 9
      ∧ (∀ w : WeakHandle, weak_mirrored_clone w = w)) :=
  ⟨by decide,
    rc_mirrored_clone_shares_referent (RcHeap.mk [RcSlot.mk (7 : Int) 1]) 0 9 (by decide)⟩

/-! ## Interior-mutable cells and locks
(`core::cell::Cell`, `core::cell::RefCell`, `std::sync::Mutex`,
`std::sync::RwLock`, from the `constant_or_slower!` block of
`src/independent.rs`).  A panic is embedded as `none` / a dedicated failure
constructor. -/

/-- The dynamic borrow state of a `RefCell`. -/
inductive BorrowFlag where
  | unused
  | reading (n : Nat)
  | writing
deriving DecidableEq, Repr

/-- `core::cell::RefCell<T>`: a value guarded by a dynamic borrow flag. -/
structure RefCell (α : Type) where
  value : α
  borrow_flag : BorrowFlag
deriving DecidableEq, Repr

/-- `RefCell::borrow`: succeeds (yielding the value) unless the cell is
currently exclusively (mutably) borrowed, in which case it panics (`none`). -/
def RefCell.borrow {α : Type} (c : RefCell α) : Option α :=
  match c.borrow_flag with
  | BorrowFlag.writing => none
  | _ => some c.value

/-- `IndependentClone for core::cell::RefCell<T>`:
`Self::new(T::independent_clone(&self.borrow()))`.  The `borrow()` panics if
the cell is mutably borrowed; otherwise a fresh, unborrowed cell is built
around an independent clone of the contents. -/
def refcell_independent_clone {α : Type} (elem_clone : α → α) (c : RefCell α) :
    Option (RefCell α) :=
  match RefCell.borrow c with
  | none => none
  | some v => some ⟨elem_clone v, BorrowFlag.unused⟩

/-- `core::cell::Cell<T>`: a value with unguarded interior mutability. -/
structure Cell (α : Type) where
  value : α
deriving DecidableEq, Repr

/-- The Rust `Copy` bound: a copying operation that returns the value itself.
`Cell::get` — and hence `IndependentClone for Cell<T>` — exists only for
`T: Copy`, which this witness structure encodes. -/
structure CopyWitness (α : Type) where
  copy : α → α
  copy_eq : ∀ x, copy x = x

/-- `Cell::get` (requires `T: Copy`): copies the contained value out, without
any borrow tracking, so it can never panic. -/
def Cell.get {α : Type} (cw : CopyWitness α) (c : Cell α) : α :=
  cw.copy c.value

/-- `IndependentClone for core::cell::Cell<T>` where `T: Copy`:
`Self::new(T::independent_clone(&self.get()))`.  The result pairs the new
cell with the (untouched) source cell; there is no failure case. -/
def cell_independent_clone {α : Type} (cw : CopyWitness α) (elem_clone : α → α)
    (c : Cell α) : Cell α × Cell α :=
  (⟨elem_clone (Cell.get cw c)⟩, c)

/-- Outcome of cloning through a lock: success with the new lock, a panic on
poison (`lock_result.unwrap()` of an `Err(PoisonError)`), or blocking forever
because the lock is already held. -/
inductive LockCloneResult (L : Type) where
  | ok (lock : L)
  | poisonPanic
  | blocked
deriving DecidableEq, Repr

/-- `std::sync::Mutex<T>`: a guarded value, a poison flag, and whether the
lock is currently held. -/
structure Mutex (α : Type) where
  value : α
  poisoned : Bool
  locked : Bool
deriving DecidableEq, Repr

/-- `std::sync::RwLock<T>`: a guarded value, a poison flag, and whether a
writer currently holds the lock (readers do not block `read()`). -/
structure RwLock (α : Type) where
  value : α
  poisoned : Bool
  write_locked : Bool
deriving DecidableEq, Repr

/-- `IndependentClone for std::sync::Mutex<T>`:

    let lock_result: Result<_, PoisonError<_>> = self.lock();
    Self::new(T::independent_clone(&lock_result.unwrap()))

`lock()` blocks while the lock is held; once acquired, a poisoned lock gives
`Err`, whose `unwrap()` panics; otherwise a fresh unlocked, unpoisoned mutex
around an independent clone of the guarded value is returned. -/
def mutex_independent_clone {α : Type} (elem_clone : α → α) (m : Mutex α) :
    LockCloneResult (Mutex α) :=
  if m.locked then LockCloneResult.blocked
  else if m.poisoned then LockCloneResult.poisonPanic
  else LockCloneResult.ok ⟨elem_clone m.value, false, false⟩

/-- `IndependentClone for std::sync::RwLock<T>`: same shape as the mutex
implementation, with `self.read()` that blocks only on a writer. -/
def rwlock_independent_clone {α : Type} (elem_clone : α → α) (l : RwLock α) :
    LockCloneResult (RwLock α) :=
  if l.write_locked then LockCloneResult.blocked
  else if l.poisoned then LockCloneResult.poisonPanic
  else LockCloneResult.ok ⟨elem_clone l.value, false, false⟩

/-- C6: independent-cloning a `RefCell` that is exclusively borrowed panics
(`none`); otherwise it returns a fresh, unborrowed cell holding an
independent clone of the contained value. -/
theorem refcell_independent_clone_reentrancy {α : Type} (elem_clone : α → α)
    (c : RefCell α) :
    (c.borrow_flag = BorrowFlag.writing →
      refcell_independent_clone elem_clone c = none)
    ∧ (c.borrow_flag ≠ BorrowFlag.writing →
      refcell_independent_clone elem_clone c
        = some ⟨elem_clone c.value, BorrowFlag.unused⟩) := by
  constructor
  · intro hw
    simp [refcell_independent_clone, RefCell.borrow, hw]
  · intro hnw
    cases hflag : c.borrow_flag <;>
      simp_all [refcell_independent_clone, RefCell.borrow, hflag]

/-- Witness for `refcell_independent_clone_reentrancy`: a mutably borrowed
cell holding `5` panics; an unborrowed one clones. -/
theorem refcell_independent_clone_reentrancy_witness :
    ((RefCell.mk (5 : Int) BorrowFlag.writing).borrow_flag = BorrowFlag.writing
      ∧ refcell_independent_clone (fun v : Int => v)
          (RefCell.mk 5 BorrowFlag.writing) = none)
    ∧ ((RefCell.mk (5 : Int) BorrowFlag.unused).borrow_flag ≠ BorrowFlag.writing
      ∧ refcell_independent_clone (fun v : Int => v) (RefCell.mk 5 BorrowFlag.unused)
          = some (RefCell.mk 5 BorrowFlag.unused)) :=
  ⟨⟨by decide,
    (refcell_independent_clone_reentrancy (fun v : Int => v)
      (RefCell.mk 5 BorrowFlag.writing)).1 (by decide)⟩,
   ⟨by decide,
    (refcell_independent_clone_reentrancy (fun v : Int => v)
      (RefCell.mk 5 BorrowFlag.unused)).2 (by decide)⟩⟩

/-- C7: independent-cloning an uncontended, unpoisoned lock (`Mutex` or
`RwLock`) returns a new, unlocked, unpoisoned lock guarding an independent
clone of the source's guarded value; a poisoned lock panics instead. -/
theorem lock_independent_clone_correct {α : Type} (elem_clone : α → α) (m : Mutex α)
    (l : RwLock α) :
    (m.locked = false → m.poisoned = false →
      mutex_independent_clone elem_clone m
        = LockCloneResult.ok ⟨elem_clone m.value, false, false⟩)
    ∧ (m.locked = false → m.poisoned = true →
      mutex_independent_clone elem_clone m = LockCloneResult.poisonPanic)
    ∧ (l.write_locked = false → l.poisoned = false →
      rwlock_independent_clone elem_clone l
        = LockCloneResult.ok ⟨elem_clone l.value, false, false⟩)
    ∧ (l.write_locked = false → l.poisoned = true →
      rwlock_independent_clone elem_clone l = LockCloneResult.poisonPanic) := by
  refine ⟨fun h1 h2 => ?_, fun h1 h2 => ?_, fun h1 h2 => ?_, fun h1 h2 => ?_⟩ <;>
    simp [mutex_independent_clone, rwlock_independent_clone, h1, h2]

/-- Witness for `lock_independent_clone_correct` on concrete locks guarding
`3`, with each poison-flag case discharged. -/
theorem lock_independent_clone_correct_witness :
    (mutex_independent_clone (fun v : Int => v) (Mutex.mk 3 false false)
      = LockCloneResult.ok (Mutex.mk 3 false false)
    ∧ mutex_independent_clone (fun v : Int => v) (Mutex.mk 3 true false)
      = LockCloneResult.poisonPanic)
    ∧ (rwlock_independent_clone (fun v : Int => v) (RwLock.mk 3 false false)
      = LockCloneResult.ok (RwLock.mk 3 false false)
    ∧ rwlock_independent_clone (fun v : Int => v) (RwLock.mk 3 true false)
      = LockCloneResult.poisonPanic) :=
  ⟨⟨(lock_independent_clone_correct (fun v : Int => v) (Mutex.mk 3 false false)
      (RwLock.mk 3 false false)).1 rfl rfl,
    (lock_independent_clone_correct (fun v : Int => v) (Mutex.mk 3 true false)
      (RwLock.mk 3 false false)).2.1 rfl rfl⟩,
   ⟨(lock_independent_clone_correct (fun v : Int => v) (Mutex.mk 3 false false)
      (RwLock.mk 3 false false)).2.2.1 rfl rfl,
    (lock_independent_clone_correct (fun v : Int => v) (Mutex.mk 3 false false)
      (RwLock.mk 3 true false)).2.2.2 rfl rfl⟩⟩

/-- C10: `IndependentClone for Cell<T>` exists only given the `T: Copy`
capability (the `CopyWitness`); under it the operation is total — it returns
a fresh cell holding an independent clone of the value read from the source,
with no failure case (its result type is a plain pair, not an `Option` as in
the `RefCell` model) — and the source cell is unchanged. -/
theorem cell_independent_clone_total {α : Type} (cw : CopyWitness α)
    (elem_clone : α → α) (c : Cell α) :
    (cell_independent_clone cw elem_clone c).1 = Cell.mk (elem_clone c.value)
    ∧ (cell_independent_clone cw elem_clone c).2 = c := by
  constructor
  · simp [cell_independent_clone, Cell.get, cw.copy_eq]
  · rfl

/-! ## Optional and fallible wrappers (`Option<T>`, `Result<T, E>`) -/

/-- Rust's `Result<T, E>`. -/
inductive RustResult (α ε : Type) where
  | ok (v : α)
  | err (e : ε)
deriving DecidableEq, Repr

/-- `IndependentClone for Option<T>` (`constant_or_slower!` in
`src/independent.rs`): `self.as_ref().map(T::independent_clone)`. -/
def option_independent_clone {α : Type} (elem_clone : α → α) (o : Option α) : Option α :=
  o.map elem_clone

/-- `MirroredClone<S> for Option<T>` (`src/mirrored.rs`, generic over every
tier `S`): `self.as_ref().map(T::mirrored_clone)`. -/
def option_mirrored_clone {α : Type} (elem_clone : α → α) (o : Option α) : Option α :=
  o.map elem_clone

/-- `IndependentClone for Result<T, E>`:
`self.as_ref().map(T::independent_clone).map_err(E::independent_clone)`. -/
def result_independent_clone {α ε : Type} (ok_clone : α → α) (err_clone : ε → ε) :
    RustResult α ε → RustResult α ε
  | RustResult.ok v => RustResult.ok (ok_clone v)
  | RustResult.err e => RustResult.err (err_clone e)

/-- `MirroredClone<S> for Result<T, E>` (generic over every tier `S`):
`self.as_ref().map(T::mirrored_clone).map_err(E::mirrored_clone)`. -/
def result_mirrored_clone {α ε : Type} (ok_clone : α → α) (err_clone : ε → ε) :
    RustResult α ε → RustResult α ε
  | RustResult.ok v => RustResult.ok (ok_clone v)
  | RustResult.err e => RustResult.err (err_clone e)

/-- C8: under both semantics that implement `Option`/`Result` cloning,
cloning `None` yields `None` whatever the element operation is (so the
element operation is never invoked), cloning `Some` applies the element
operation, and cloning a `Result` applies the success-path clone to `ok` and
the error-path clone to `err`, preserving the variant. -/
theorem option_result_pass_through {α ε : Type} (f g : α → α) (err_clone : ε → ε)
    (x : α) (e : ε) :
    option_independent_clone f (none : Option α) = none
    ∧ option_independent_clone f (some x) = some (f x)
    ∧ option_independent_clone f (none : Option α)
        = option_independent_clone g (none : Option α)
    ∧ option_mirrored_clone f (none : Option α) = none
    ∧ option_mirrored_clone f (some x) = some (f x)
    ∧ result_independent_clone f err_clone (RustResult.ok x) = RustResult.ok (f x)
    ∧ result_independent_clone f err_clone (RustResult.err e) = RustResult.err (err_clone e)
    ∧ result_mirrored_clone f err_clone (RustResult.ok x) = RustResult.ok (f x)
    ∧ result_mirrored_clone f err_clone (RustResult.err e)
        = RustResult.err (err_clone e) := by
  refine ⟨rfl, rfl, rfl, rfl, rfl, rfl, rfl, rfl, rfl⟩

/-! ## Tuples

`make_tuple_macro!` (identical in `src/independent.rs` and
`src/mirrored.rs`) defines a per-arity impl macro, and is instantiated only
as `tuple_constant` (`ConstantTime`), `tuple_log` (`LogTime`) and
`tuple_any` (`AnySpeed`): tuples receive no `NearInstant` implementations.
`src/mixed.rs` contains no tuple implementations at all.  Each generated
body destructures the tuple and rebuilds it from element-wise clones at the
same tier. -/

/-- Which (semantics, tier) pairs carry tuple implementations, read off the
`make_tuple_macro!` / `call_varargs_macro!` instantiations of
`src/independent.rs` and `src/mirrored.rs` (and the absence of tuple impls
in `src/mixed.rs`). -/
def tuple_impl_exists : Sem → Speed → Bool
  | Sem.independent, Speed.constantTime => true
  | Sem.independent, Speed.logTime => true
  | Sem.independent, Speed.anySpeed => true
  | Sem.mirrored, Speed.constantTime => true
  | Sem.mirrored, Speed.logTime => true
  | Sem.mirrored, Speed.anySpeed => true
  | _, _ => false

/-- Modelled from the spec: the definition of `call_varargs_macro!` is not
among the provided sources (only its invocations are); per the spec it
instantiates each per-arity macro at "tuples of arity up to a fixed maximum
(practically, 1 through 12 elements)". -/
def tuple_arities : List Nat :=
  (List.range 12).map (fun n => n + 1)

/-- The generated impl for 1-tuples `(T1,)`: element-wise clone of the single
element. -/
def tuple1_clone {α : Type} (clone1 : α → α) (t : α) : α :=
  clone1 t

/-- The generated impl for pairs `(T1, T2)`:
`let (T1, T2) = self; (T1.clone_fn(), T2.clone_fn())`, both elements cloned
at the same tier. -/
def tuple2_clone {α β : Type} (clone1 : α → α) (clone2 : β → β) : α × β → α × β
  | (a, b) => (clone1 a, clone2 b)

/-- The generated impl for triples `(T1, T2, T3)`. -/
def tuple3_clone {α β γ : Type} (clone1 : α → α) (clone2 : β → β) (clone3 : γ → γ) :
    α × β × γ → α × β × γ
  | (a, b, c) => (clone1 a, clone2 b, clone3 c)

/-- C3 counterexample: tuples do NOT implement the semantics traits at every
tier — there is no `NearInstant` tuple implementation for any semantics, and
no `MixedClone` tuple implementation at any tier. -/
theorem tuple_impl_coverage_gap :
    tuple_impl_exists Sem.independent Speed.nearInstant = false
    ∧ tuple_impl_exists Sem.mirrored Speed.nearInstant = false
    ∧ tuple_impl_exists Sem.mixed Speed.anySpeed = false := by
  decide

/-- C3 (amended): tuple implementations exist exactly for the `Independent`
and `Mirrored` semantics at the `ConstantTime`, `LogTime` and `AnySpeed`
tiers, covering arities 1 through 12, and each one clones element-wise at
its own (semantics, tier) pair — shown here for arities 1, 2 and 3, whose
generated bodies are the tier- and semantics-generic `tuple1_clone`,
`tuple2_clone`, `tuple3_clone`. -/
theorem tuple_pass_through_tiers {α β γ : Type} (clone1 : α → α) (clone2 : β → β)
    (clone3 : γ → γ) (a : α) (b : β) (c : γ) :
    (∀ sem : Sem, ∀ s : Speed, tuple_impl_exists sem s = true
      ↔ ((sem = Sem.independent ∨ sem = Sem.mirrored)
        ∧ (s = Speed.constantTime ∨ s = Speed.logTime ∨ s = Speed.anySpeed)))
    ∧ tuple_arities = [1, 2, 3, 4, 5, 6, 7, 8, 9, 10, 11, 12]
    ∧ tuple1_clone clone1 a = clone1 a
    ∧ tuple2_clone clone1 clone2 (a, b) = (clone1 a, clone2 b)
    ∧ tuple3_clone clone1 clone2 clone3 (a, b, c) = (clone1 a, clone2 b, clone3 c) := by
  refine ⟨?_, by decide, rfl, rfl, rfl⟩
  intro sem s
  cases sem <;> cases s <;> simp [tuple_impl_exists]

/-! ## Primitive `NearInstant` coverage (C4)

Which of the three semantics traits are implemented at `NearInstant` for the
three primitive families named by the claim, read off the impl blocks:

  * `src/independent.rs`: `impl_copy!`/`int_impls!` cover the scalars
    (`*self`); `non_recursive_near_instant!` covers `f32/f64/bool/char` and
    the zero-sized marker types (`self.clone()`); raw pointers appear
    nowhere in the file;
  * `src/mirrored.rs`: `non_recursive_near_instant!` covers only `()`,
    `Infallible`, `Empty<T>`, `PhantomData`, `PhantomPinned`, `RangeFull` —
    no scalars, no raw pointers;
  * `src/mixed.rs`: `non_recursive_near_instant!` covers only `&T`,
    `*const T`, `*mut T`, `NonNull<T>` — no scalars, no zero-sized types. -/

/-- The primitive type families of claim C4. -/
inductive PrimFamily where
  | scalar
  | zeroSized
  | rawPointer
deriving DecidableEq, Repr

/-- Whether a `NearInstant` implementation of the given semantics trait
exists for the given primitive family. -/
def near_instant_impl_exists : Sem → PrimFamily → Bool
  | Sem.independent, PrimFamily.scalar => true
  | Sem.independent, PrimFamily.zeroSized => true
  | Sem.independent, PrimFamily.rawPointer => false
  | Sem.mirrored, PrimFamily.scalar => false
  | Sem.mirrored, PrimFamily.zeroSized => true
  | Sem.mirrored, PrimFamily.rawPointer => false
  | Sem.mixed, PrimFamily.scalar => false
  | Sem.mixed, PrimFamily.zeroSized => false
  | Sem.mixed, PrimFamily.rawPointer => true

/-- `impl_copy!`: the scalar `independent_clone` bodies are `*self` — a copy
of the source value (scalar values modelled as integers). -/
def scalar_independent_clone (x : Int) : Int :=
  x

/-- The zero-sized/marker-type clone bodies are `self.clone()`, which for
these `Copy`-like types is a copy of the (unique) value. -/
def zero_sized_clone (u : Unit) : Unit :=
  u

/-- The raw-pointer `mixed_clone` bodies are `self.clone()` — a copy of the
address (addresses modelled as naturals). -/
def raw_pointer_mixed_clone (p : Nat) : Nat :=
  p

/-- C4 counterexample: it is not the case that every scalar, zero-sized and
raw-pointer type implements all three semantics traits at `NearInstant` —
scalars have no `MirroredClone` or `MixedClone` impl, raw pointers have no
`IndependentClone` or `MirroredClone` impl, and zero-sized types have no
`MixedClone` impl. -/
theorem primitive_near_instant_coverage_gap :
    near_instant_impl_exists Sem.mirrored PrimFamily.scalar = false
    ∧ near_instant_impl_exists Sem.mixed PrimFamily.scalar = false
    ∧ near_instant_impl_exists Sem.independent PrimFamily.rawPointer = false
    ∧ near_instant_impl_exists Sem.mixed PrimFamily.zeroSized = false := by
  decide

/-- C4 (amended): at `NearInstant`, scalars and zero-sized/marker types
implement `IndependentClone`, zero-sized/marker types (alone among the
three families) also implement `MirroredClone`, and raw pointers (alone)
implement `MixedClone`; each implementation that exists returns a copy of
the source value. -/
theorem primitive_near_instant_coverage (x : Int) (p : Nat) :
    (∀ fam : PrimFamily, near_instant_impl_exists Sem.independent fam = true
      ↔ (fam = PrimFamily.scalar ∨ fam = PrimFamily.zeroSized))
    ∧ (∀ fam : PrimFamily, near_instant_impl_exists Sem.mirrored fam = true
      ↔ fam = PrimFamily.zeroSized)
    ∧ (∀ fam : PrimFamily, near_instant_impl_exists Sem.mixed fam = true
      ↔ fam = PrimFamily.rawPointer)
    ∧ scalar_independent_clone x = x
    ∧ zero_sized_clone () = ()
    ∧ raw_pointer_mixed_clone p = p := by
  refine ⟨fun fam => ?_, fun fam => ?_, fun fam => ?_, rfl, rfl, rfl⟩ <;>
    cases fam <;> simp [near_instant_impl_exists]

/-! ## Collections (C9)

`map_and_collect!` in `src/independent.rs` — plus the manual `BTreeMap`,
`HashSet` and `HashMap` impls — generate `IndependentClone` only at
`AnySpeed`, each body being `self.iter().map(clone).collect()`; the map
impls clone key and value independently.  No collection implements any of
the faster tiers (collections do not carry the `NonRecursive` marker). -/

/-- Which tiers carry collection `IndependentClone` implementations
(`Vec`, `VecDeque`, `LinkedList`, `BTreeSet`, `BinaryHeap`, `Box<[T]>`,
`BTreeMap`, `HashSet`, `HashMap`): only `AnySpeed`. -/
def collection_independent_impl_exists : Speed → Bool
  | Speed.anySpeed => true
  | _ => false

/-- The sequence/set/heap `AnySpeed` body:
`self.iter().map(T::independent_clone).collect()`, over the entry sequence. -/
def collection_independent_clone {α : Type} (elem_clone : α → α) (entries : List α) :
    List α :=
  entries.map elem_clone

/-- The map (`BTreeMap` / `HashMap`) `AnySpeed` body: every entry's key and
value are cloned independently and the entries recollected. -/
def map_independent_clone {κ ν : Type} (key_clone : κ → κ) (val_clone : ν → ν)
    (entries : List (κ × ν)) : List (κ × ν) :=
  entries.map (fun e => (key_clone e.1, val_clone e.2))

/-- C9: collections implement `IndependentClone` only at `AnySpeed`; the
result is exactly the element-wise independent clone of every entry,
recollected (same length, entry `i` the clone of source entry `i`); maps
clone both key and value of every entry. -/
theorem collection_any_speed_rebuild {α κ ν : Type} (elem_clone : α → α)
    (key_clone : κ → κ) (val_clone : ν → ν) (entries : List α)
    (map_entries : List (κ × ν)) :
    (∀ s : Speed, collection_independent_impl_exists s = true ↔ s = Speed.anySpeed)
    ∧ collection_independent_clone elem_clone entries = entries.map elem_clone
    ∧ (collection_independent_clone elem_clone entries).length = entries.length
    ∧ (∀ i : Nat, (collection_independent_clone elem_clone entries)[i]?
        = (entries[i]?).map elem_clone)
    ∧ map_independent_clone key_clone val_clone map_entries
        = map_entries.map (fun e => (key_clone e.1, val_clone e.2))
    ∧ (∀ i : Nat, (map_independent_clone key_clone val_clone map_entries)[i]?
        = (map_entries[i]?).map (fun e => (key_clone e.1, val_clone e.2))) := by
  refine ⟨fun s => ?_, rfl, ?_, fun i => ?_, rfl, fun i => ?_⟩
  · cases s <;> simp [collection_independent_impl_exists]
  · simp [collection_independent_clone]
  · simp [collection_independent_clone, List.getElem?_map]
  · simp [map_independent_clone, List.getElem?_map]

end CloneBehavior
